import Mathlib

/-!
Verification of the wayland-mcp Node.js protocol bridge (src/wayland_mcp.js).

The bridge reads one JSON request per stdin line, dispatches on the "tool"
field (forwarding "execute_task" to a local HTTP backend, rejecting two
registered-but-not-implemented tools and unknown tools), and writes exactly
one JSON response line per input line, with a best-effort audit log.

The embedding below models:
* JSON values (`Json`), a serializer modelling `JSON.stringify` and a
  fuel-bounded parser modelling `JSON.parse` (restricted to integer numbers
  and to the escape sequences the bridge can produce; floats and \u escapes
  are outside every claim considered here);
* the `handleRequest` function and the `rl.on("line")` handler as pure
  state-passing functions over an explicit `Trace` (HTTP fetches issued and
  audit-log appends), with the HTTP backend and the audit-log failure
  behaviour supplied as oracles;
* an event-step relation for the concurrent per-line processing of `main`,
  in which backend calls may complete out of input order.
-/

namespace WaylandMcp

/-- JSON values as the bridge manipulates them. Numbers are restricted to
integers (every number appearing in the claims is one; the bridge itself
never computes with numbers). An object keeps its fields in textual order
and may repeat a name; lookup takes the last occurrence, as JavaScript
object construction from parsed JSON does. -/
inductive Json where
  | null
  | bool (b : Bool)
  | num (n : Int)
  | str (s : String)
  | arr (elems : List Json)
  | obj (fields : List (String × Json))

/-! ## Serialization, modelling JSON.stringify -/

/-- The ten decimal digit characters, most significant digit produced first
by `natToCharsAux`. -/
def digitChar : Nat → Char
  | 0 => '0'
  | 1 => '1'
  | 2 => '2'
  | 3 => '3'
  | 4 => '4'
  | 5 => '5'
  | 6 => '6'
  | 7 => '7'
  | 8 => '8'
  | 9 => '9'
  | _ => '0'

/-- Decimal digits of `n`, most significant first, prepended to `acc`. -/
def natToCharsAux (n : Nat) (acc : List Char) : List Char :=
  if h : n < 10 then digitChar n :: acc
  else natToCharsAux (n / 10) (digitChar (n % 10) :: acc)
decreasing_by exact Nat.div_lt_self (by omega) (by omega)

/-- Decimal representation of a natural number. -/
def natToChars (n : Nat) : List Char := natToCharsAux n []

/-- Decimal representation of an integer, as JSON.stringify renders it. -/
def intToChars (i : Int) : List Char :=
  if i < 0 then '-' :: natToChars i.natAbs else natToChars i.natAbs

/-- Escaping of one string character inside a JSON string literal. The
quote and backslash must be escaped; the three common control characters
are escaped as JSON.stringify does. -/
def escChar (c : Char) : List Char :=
  if c = '"' then ['\\', '"']
  else if c = '\\' then ['\\', '\\']
  else if c = '\n' then ['\\', 'n']
  else if c = '\t' then ['\\', 't']
  else if c = '\r' then ['\\', 'r']
  else [c]

/-- Escaping of a whole string body. -/
def escStr : List Char → List Char
  | [] => []
  | c :: cs => escChar c ++ escStr cs

mutual

/-- Characters of the JSON serialization of a value, modelling
`JSON.stringify` (which emits no whitespace). -/
def serializeChars : Json → List Char
  | .null => 'n' :: ['u', 'l', 'l']
  | .bool true => 't' :: ['r', 'u', 'e']
  | .bool false => 'f' :: ['a', 'l', 's', 'e']
  | .num n => intToChars n
  | .str s => '"' :: (escStr s.toList ++ ['"'])
  | .arr xs => '[' :: (serializeItems xs ++ [']'])
  | .obj fs => '\x7b' :: (serializeMembers fs ++ ['\x7d'])

/-- Comma-separated serialization of array elements. -/
def serializeItems : List Json → List Char
  | [] => []
  | [x] => serializeChars x
  | x :: y :: r => serializeChars x ++ (',' :: serializeItems (y :: r))

/-- Comma-separated serialization of object members. -/
def serializeMembers : List (String × Json) → List Char
  | [] => []
  | [(k, v)] => '"' :: (escStr k.toList ++ ('"' :: (':' :: serializeChars v)))
  | (k, v) :: m :: r =>
    ('"' :: (escStr k.toList ++ ('"' :: (':' :: serializeChars v))))
      ++ (',' :: serializeMembers (m :: r))

end

/-- Serialization of a value to a string, modelling `JSON.stringify`. -/
def serialize (j : Json) : String := String.mk (serializeChars j)

/-! ## Parsing, modelling JSON.parse -/

/-- Decision whether a character is a decimal digit, written as the tenfold
disjunction so that proofs can proceed by the ten concrete cases. -/
def isDigitChar (c : Char) : Bool :=
  c = '0' || c = '1' || c = '2' || c = '3' || c = '4' ||
  c = '5' || c = '6' || c = '7' || c = '8' || c = '9'

/-- Numeric value of a digit character. -/
def digitVal (c : Char) : Nat := c.toNat - 48

/-- JSON whitespace. -/
def isWsChar (c : Char) : Bool :=
  c = ' ' || c = '\t' || c = '\n' || c = '\r'

/-- Drop leading whitespace. -/
def skipWs : List Char → List Char
  | [] => []
  | c :: cs => if isWsChar c then skipWs cs else c :: cs

/-- Meaning of a string escape character. -/
def unescape (c : Char) : Option Char :=
  if c = '"' then some '"'
  else if c = '\\' then some '\\'
  else if c = '/' then some '/'
  else if c = 'n' then some '\n'
  else if c = 't' then some '\t'
  else if c = 'r' then some '\r'
  else if c = 'b' then some (Char.ofNat 8)
  else if c = 'f' then some (Char.ofNat 12)
  else none

/-- Body of a JSON string literal, after the opening quote: the decoded
characters and the remaining input after the closing quote. -/
def parseStrChars : List Char → Except String (List Char × List Char)
  | [] => .error "Unterminated string in JSON"
  | c :: cs =>
    if c = '"' then .ok ([], cs)
    else if c = '\\' then
      match cs with
      | [] => .error "Unterminated string in JSON"
      | e :: cs2 =>
        match unescape e with
        | none => .error "Bad escaped character in JSON"
        | some c2 =>
          match parseStrChars cs2 with
          | .error m => .error m
          | .ok (s, r) => .ok (c2 :: s, r)
    else
      match parseStrChars cs with
      | .error m => .error m
      | .ok (s, r) => .ok (c :: s, r)

/-- Value of a run of digit characters, accumulated onto `acc`; stops at
the first non-digit. -/
def parseDigitsAux (acc : Nat) : List Char → Nat × List Char
  | [] => (acc, [])
  | c :: cs =>
    if isDigitChar c then parseDigitsAux (acc * 10 + digitVal c) cs
    else (acc, c :: cs)

mutual

/-- One JSON value from the front of the input, whitespace-tolerant,
returning the value and the remaining input. The fuel bounds nesting; the
top-level entry point supplies enough for any input of its length. -/
def parseVal : Nat → List Char → Except String (Json × List Char)
  | 0, _ => .error "JSON nesting too deep"
  | fuel + 1, cs =>
    match skipWs cs with
    | [] => .error "Unexpected end of JSON input"
    | c :: cs1 =>
      if c = 'n' then
        match cs1 with
        | 'u' :: 'l' :: 'l' :: r => .ok (.null, r)
        | _ => .error "Unexpected token in JSON"
      else if c = 't' then
        match cs1 with
        | 'r' :: 'u' :: 'e' :: r => .ok (.bool true, r)
        | _ => .error "Unexpected token in JSON"
      else if c = 'f' then
        match cs1 with
        | 'a' :: 'l' :: 's' :: 'e' :: r => .ok (.bool false, r)
        | _ => .error "Unexpected token in JSON"
      else if c = '"' then
        match parseStrChars cs1 with
        | .error m => .error m
        | .ok (s, r) => .ok (.str (String.mk s), r)
      else if c = '-' then
        match cs1 with
        | [] => .error "Unexpected end of JSON input"
        | d :: cs2 =>
          if isDigitChar d then
            let p := parseDigitsAux (digitVal d) cs2
            .ok (.num (-(p.1 : Int)), p.2)
          else .error "Unexpected token in JSON"
      else if isDigitChar c then
        let p := parseDigitsAux (digitVal c) cs1
        .ok (.num (p.1 : Int), p.2)
      else if c = '[' then
        match skipWs cs1 with
        | ']' :: r => .ok (.arr [], r)
        | cs2 =>
          match parseItems fuel cs2 with
          | .error m => .error m
          | .ok (xs, r) => .ok (.arr xs, r)
      else if c = '\x7b' then
        match skipWs cs1 with
        | '\x7d' :: r => .ok (.obj [], r)
        | cs2 =>
          match parseMembers fuel cs2 with
          | .error m => .error m
          | .ok (fs, r) => .ok (.obj fs, r)
      else .error "Unexpected token in JSON"

/-- One or more comma-separated array elements followed by the closing
bracket. -/
def parseItems : Nat → List Char → Except String (List Json × List Char)
  | 0, _ => .error "JSON nesting too deep"
  | fuel + 1, cs =>
    match parseVal fuel cs with
    | .error m => .error m
    | .ok (x, r) =>
      match skipWs r with
      | ',' :: r2 =>
        match parseItems fuel r2 with
        | .error m => .error m
        | .ok (xs, r3) => .ok (x :: xs, r3)
      | ']' :: r2 => .ok ([x], r2)
      | _ => .error "Unexpected token in JSON"

/-- One or more comma-separated object members followed by the closing
brace. -/
def parseMembers : Nat → List Char → Except String (List (String × Json) × List Char)
  | 0, _ => .error "JSON nesting too deep"
  | fuel + 1, cs =>
    match skipWs cs with
    | '"' :: cs1 =>
      match parseStrChars cs1 with
      | .error m => .error m
      | .ok (k, r) =>
        match skipWs r with
        | ':' :: r2 =>
          match parseVal fuel r2 with
          | .error m => .error m
          | .ok (v, r3) =>
            match skipWs r3 with
            | ',' :: r4 =>
              match parseMembers fuel r4 with
              | .error m => .error m
              | .ok (fs, r5) => .ok ((String.mk k, v) :: fs, r5)
            | '\x7d' :: r4 => .ok ([(String.mk k, v)], r4)
            | _ => .error "Unexpected token in JSON"
        | _ => .error "Expected colon after property name in JSON"
    | _ => .error "Expected property name or closing brace in JSON"

end

/-- Parsing of a whole input string, modelling `JSON.parse`: one value,
possibly surrounded by whitespace, and nothing after it. The fuel
`2 * length + 2` exceeds the needs of any well-formed input of that length. -/
def parseJson (s : String) : Except String Json :=
  match parseVal (2 * s.length + 2) s.toList with
  | .error m => .error m
  | .ok (j, r) =>
    match skipWs r with
    | [] => .ok j
    | _ :: _ => .error "Unexpected non-whitespace character after JSON data"

/-! ## The JavaScript view of a parsed request

`handleRequest` begins with `const { tool, arguments: args } = req`.
Destructuring a JavaScript value reads properties off its object coercion:
it throws a TypeError only when the value is `null` (or `undefined`, which
`JSON.parse` never yields); on every other non-object value the properties
are simply `undefined`. A missing property is `undefined`, modelled as
`none`. -/

/-- Field of a JavaScript object: `none` models `undefined`. -/
abbrev JsField := Option Json

/-- Property lookup on an object built from parsed JSON members: the last
occurrence of a repeated name wins, as in JavaScript object construction. -/
def lookupLast (fs : List (String × Json)) (k : String) : Option Json :=
  match fs with
  | [] => none
  | (k2, v) :: r =>
    match lookupLast r k with
    | some w => some w
    | none => if k2 = k then some v else none

/-- Message of the TypeError thrown by destructuring `null`. -/
def destructureMsg : String :=
  "Cannot destructure property \x27tool\x27 of \x27req\x27 as it is null."

/-- Model of `const { tool, arguments: args } = req`. -/
def destructure (req : Json) : Except String (JsField × JsField) :=
  match req with
  | .null => .error destructureMsg
  | .obj fs => .ok (lookupLast fs "tool", lookupLast fs "arguments")
  | _ => .ok (none, none)

/-- Model of the strict comparison `tool === "<lit>"`: only a string value
equal to the literal matches. -/
def isToolStr (tool : JsField) (lit : String) : Bool :=
  match tool with
  | some (.str s) => s = lit
  | _ => false

/-- Model of JavaScript string conversion as used in the template literal
for the unknown-tool message (`undefined` renders as "undefined", a string
renders without quotes, an object as "[object Object]"). -/
def jsToStringJ : Json → String
  | .null => "null"
  | .bool true => "true"
  | .bool false => "false"
  | .num n => toString n
  | .str s => s
  | .arr xs => String.intercalate "," (xs.attach.map (fun x => jsToStringJ x.1))
  | .obj _ => "[object Object]"
decreasing_by
  have h := List.sizeOf_lt_of_mem x.2
  simp only [Json.arr.sizeOf_spec]
  omega

/-- String conversion of a possibly-undefined field. -/
def jsToStringF : JsField → String
  | none => "undefined"
  | some j => jsToStringJ j

/-- Model of `JSON.stringify` applied to a field: stringifying `undefined`
yields `undefined` (no body is sent in that case). -/
def stringifyField : JsField → Option String
  | none => none
  | some j => some (serialize j)

/-! ## The bridge pipeline as a state-passing function

The observable effects of one line of processing are collected in a
`Trace`: the HTTP requests issued (`fetches`, each holding the body that
was posted) and the audit-log file content (`auditLog`). `log` wraps
`fs.appendFileSync` in a try/catch that ignores failures; whether the k-th
append raises is supplied by the oracle `lf`. The ambient timestamp that
`log` prefixes, and the copy written to stderr, carry no information any
claim depends on and are not modelled. -/

/-- Observable effects accumulated while processing lines. -/
structure Trace where
  fetches : List (Option String)
  auditLog : List String
  logCalls : Nat

/-- The empty trace. -/
def emptyTrace : Trace := ⟨[], [], 0⟩

/-- Model of the `log` function: one append attempt to the audit file,
whose failure (as decided by the oracle `lf` for this call number) is
caught and ignored. -/
def logW (lf : Nat → Bool) (msg : String) (t : Trace) : Trace :=
  { t with
    logCalls := t.logCalls + 1
    auditLog := if lf t.logCalls then t.auditLog else t.auditLog ++ [msg] }

/-- Behaviour of the backend at `http://127.0.0.1:5000/execute` for one
POST with the given body: either an HTTP reply (status and body text) or a
transport-level failure (connection refused, reset, timeout, ...), which
`fetch` surfaces as a rejection with the given message. -/
inductive BackendReply where
  | reply (status : Nat) (body : String)
  | transport (msg : String)

/-- A backend oracle: the reply as a function of the posted body. -/
abbrev Backend := Option String → BackendReply

/-- Model of `handleRequest` from src/wayland_mcp.js. The result is
`.error m` exactly when an exception escapes the (async) function — which
only the initial destructuring can cause — and `.ok res` for the object it
returns. Every statement of the source is reflected in order: the
destructuring, the entry log, the three-way tool dispatch with the fetch
and `response.json()` for "execute_task", and the catch that turns an
exception inside the `try` into `{ error: e.message }`. -/
def handleRequest (lf : Nat → Bool) (backend : Backend) (req : Json) (t : Trace) :
    Except String Json × Trace :=
  match destructure req with
  | .error m => (.error m, t)
  | .ok (tool, args) =>
    let t1 := logW lf ("Received request: " ++ serialize req) t
    if isToolStr tool "execute_task" then
      let t2 := logW lf ("Forwarding to Python server: "
        ++ ((stringifyField args).getD "undefined")) t1
      let body := stringifyField args
      let t3 := { t2 with fetches := t2.fetches ++ [body] }
      match backend body with
      | .transport m =>
        let t4 := logW lf ("Error handling request: " ++ m) t3
        (.ok (Json.obj [("error", Json.str m)]), t4)
      | .reply _ bdy =>
        match parseJson bdy with
        | .error pm =>
          let t4 := logW lf ("Error handling request: " ++ pm) t3
          (.ok (Json.obj [("error", Json.str pm)]), t4)
        | .ok d =>
          let t4 := logW lf ("Response from Python server: " ++ serialize d) t3
          (.ok (Json.obj [("result", d)]), t4)
    else if isToolStr tool "capture_screenshot" then
      let t2 := logW lf "capture_screenshot not implemented" t1
      (.ok (Json.obj [("error", Json.str "capture_screenshot not implemented")]), t2)
    else if isToolStr tool "compare_images" then
      let t2 := logW lf "compare_images not implemented" t1
      (.ok (Json.obj [("error", Json.str "compare_images not implemented")]), t2)
    else
      let t2 := logW lf ("Unknown tool: " ++ jsToStringF tool) t1
      (.ok (Json.obj [("error", Json.str ("Unknown tool: " ++ jsToStringF tool))]), t2)

/-- Model of the `rl.on("line", ...)` handler: log the raw line, parse it,
run `handleRequest`, and write one response line; any exception from the
parse or from awaiting `handleRequest` is caught and written as one
`{ error: e.message }` line. The returned string is the line written to
stdout (without its terminating newline). -/
def processLine (lf : Nat → Bool) (backend : Backend) (line : String) (t : Trace) :
    String × Trace :=
  let t1 := logW lf ("Received MCP line: " ++ line) t
  match parseJson line with
  | .error m =>
    let t2 := logW lf ("Error processing MCP line: " ++ m) t1
    (serialize (Json.obj [("error", Json.str m)]), t2)
  | .ok req =>
    match handleRequest lf backend req t1 with
    | (.error m, t2) =>
      let t3 := logW lf ("Error processing MCP line: " ++ m) t2
      (serialize (Json.obj [("error", Json.str m)]), t3)
    | (.ok res, t2) =>
      let out := serialize res
      let t3 := logW lf ("Sending MCP response: " ++ out) t2
      (out, t3)

/-- The audit-log oracle under which no append ever fails. -/
def noFail : Nat → Bool := fun _ => false

/-- The output line a given input line produces, evaluated with a fresh
trace and a never-failing audit log (C9 below shows the output line does
not depend on either). -/
def outLine (backend : Backend) (line : String) : String :=
  (processLine noFail backend line emptyTrace).1

/-- A backend double that echoes the posted body back as its reply body. -/
def echoBackend : Backend := fun body => .reply 200 (body.getD "")

/-! ## Event model of `main`

`rl.on("line", async (line) => ...)` starts one asynchronous handler per
line and does not wait for it, so several lines can be in flight at once.
A handler whose `JSON.parse` throws writes its error line synchronously,
before the next line event is handled; every other handler suspends at
`await handleRequest(req)` and writes its line only when its (possibly
network-bound) processing completes — and backend replies may arrive in
any order. The state machine below captures exactly these two events:
delivery of the next input line, and completion of any in-flight line.
Because the output line of a handler does not depend on the shared log
state (a lemma proved below), each in-flight line is tagged with its
eventual output at delivery time. -/

/-- State of the bridge process: lines not yet delivered by readline, the
number of lines delivered so far, the in-flight handlers (input index and
the output line each will write on completion), and the output lines
written so far (with the index of the input line each answers). -/
structure EState where
  pending : List String
  delivered : Nat
  inflight : List (Nat × String)
  outs : List (Nat × String)

/-- Decision whether a line completes synchronously inside the `line`
event (its `JSON.parse` throws before the handler first suspends). -/
def syncLine (line : String) : Bool :=
  match parseJson line with
  | .error _ => true
  | .ok _ => false

/-- One scheduler event of the bridge process. -/
inductive Step (backend : Backend) : EState → EState → Prop
  | deliverSync (l : String) (rest : List String) (s : EState) :
      s.pending = l :: rest → syncLine l = true →
      Step backend s
        ⟨rest, s.delivered + 1, s.inflight,
          s.outs ++ [(s.delivered, outLine backend l)]⟩
  | deliverAsync (l : String) (rest : List String) (s : EState) :
      s.pending = l :: rest → syncLine l = false →
      Step backend s
        ⟨rest, s.delivered + 1,
          s.inflight ++ [(s.delivered, outLine backend l)], s.outs⟩
  | complete (pre post : List (Nat × String)) (io : Nat × String) (s : EState) :
      s.inflight = pre ++ io :: post →
      Step backend s ⟨s.pending, s.delivered, pre ++ post, s.outs ++ [io]⟩

/-- Reachability under scheduler events. -/
def Reaches (backend : Backend) : EState → EState → Prop :=
  Relation.ReflTransGen (Step backend)

/-- The state at process start with the given input lines. -/
def initState (lines : List String) : EState := ⟨lines, 0, [], []⟩

/-- A state in which every line has been delivered and answered. -/
def Terminal (s : EState) : Prop := s.pending = [] ∧ s.inflight = []

/-- The output lines in input order: entry `i` pairs input index `i` with
the output line input `i` produces. -/
def expectedOuts (backend : Backend) (lines : List String) : List (Nat × String) :=
  (List.range lines.length).map (fun i => (i, outLine backend (lines.getD i "")))

/-! ## Round-trip correctness of the JSON model

The claims about forwarding need that the backend boundary is faithful:
`JSON.parse(JSON.stringify(v))` recovers `v`. The lemmas below establish
this for the model (`parse_serialize`). -/

/-- A boundary suitable for following a serialized value: empty input or
a first character that is neither whitespace nor a digit, so that number
and whitespace scanning stop exactly at the boundary. -/
def bdry : List Char → Bool
  | [] => true
  | c :: _ => !isWsChar c && !isDigitChar c

/-- Value of a digit-character run, most significant first, folded onto
`acc`; the specification `parseDigitsAux` is proved against. -/
def strVal (acc : Nat) (ds : List Char) : Nat :=
  ds.foldl (fun a c => a * 10 + digitVal c) acc

theorem isDigitChar_digitChar (k : Nat) : isDigitChar (digitChar k) = true := by
  unfold digitChar
  split <;> decide

theorem digitVal_digitChar (k : Nat) (h : k < 10) : digitVal (digitChar k) = k := by
  interval_cases k <;> decide

theorem isDigitChar_elim {c : Char} (h : isDigitChar c = true) :
    c = '0' ∨ c = '1' ∨ c = '2' ∨ c = '3' ∨ c = '4' ∨
    c = '5' ∨ c = '6' ∨ c = '7' ∨ c = '8' ∨ c = '9' := by
  simp [isDigitChar] at h
  tauto

theorem natToCharsAux_eq (n : Nat) : ∀ acc : List Char,
    natToCharsAux n acc = natToChars n ++ acc := by
  induction n using Nat.strong_induction_on with
  | _ n ih =>
    intro acc
    by_cases h : n < 10
    · rw [natToChars]
      conv_lhs => rw [natToCharsAux.eq_def]
      conv_rhs => rw [natToCharsAux.eq_def]
      rw [dif_pos h, dif_pos h]
      rfl
    · have hd : n / 10 < n := Nat.div_lt_self (by omega) (by omega)
      rw [natToChars]
      conv_lhs => rw [natToCharsAux.eq_def]
      conv_rhs => rw [natToCharsAux.eq_def]
      rw [dif_neg h, dif_neg h, ih _ hd, ih _ hd, List.append_assoc]
      rfl

theorem natToChars_eq (n : Nat) :
    natToChars n = if n < 10 then [digitChar n]
      else natToChars (n / 10) ++ [digitChar (n % 10)] := by
  by_cases h : n < 10
  · rw [natToChars, natToCharsAux]; simp [h]
  · rw [natToChars, natToCharsAux]
    simp only [h, dite_false, if_false]
    exact natToCharsAux_eq _ _

theorem natToChars_ne_nil (n : Nat) : natToChars n ≠ [] := by
  rw [natToChars_eq]
  split
  · simp
  · simp

theorem natToChars_digits (n : Nat) : ∀ c ∈ natToChars n, isDigitChar c = true := by
  induction n using Nat.strong_induction_on with
  | _ n ih =>
    intro c hc
    rw [natToChars_eq] at hc
    by_cases h : n < 10
    · simp [h] at hc
      simp [hc, isDigitChar_digitChar]
    · simp only [h, if_false, List.mem_append, List.mem_singleton] at hc
      rcases hc with hc | hc
      · exact ih _ (Nat.div_lt_self (by omega) (by omega)) c hc
      · simp [hc, isDigitChar_digitChar]

theorem strVal_append (a : Nat) (l1 l2 : List Char) :
    strVal a (l1 ++ l2) = strVal (strVal a l1) l2 := by
  unfold strVal
  exact List.foldl_append _ _ _ _

theorem strVal_natToChars (n : Nat) : ∀ a : Nat,
    strVal a (natToChars n) = a * 10 ^ (natToChars n).length + n := by
  induction n using Nat.strong_induction_on with
  | _ n ih =>
    intro a
    rw [natToChars_eq]
    by_cases h : n < 10
    · simp only [h, if_true]
      simp [strVal, digitVal_digitChar n h]
    · simp only [h, if_false]
      rw [strVal_append, ih _ (Nat.div_lt_self (by omega) (by omega))]
      have hm : n % 10 < 10 := Nat.mod_lt _ (by omega)
      simp only [strVal, List.foldl_cons, List.foldl_nil, digitVal_digitChar _ hm,
        List.length_append, List.length_singleton]
      rw [pow_succ]
      have := Nat.div_add_mod n 10
      set k := (natToChars (n / 10)).length
      calc (a * 10 ^ k + n / 10) * 10 + n % 10
          = a * (10 ^ k * 10) + (10 * (n / 10) + n % 10) := by ring
        _ = a * (10 ^ k * 10) + n := by omega

theorem parseDigitsAux_append (ds : List Char) (rest : List Char)
    (hds : ∀ c ∈ ds, isDigitChar c = true) (hrest : bdry rest = true) :
    ∀ acc, parseDigitsAux acc (ds ++ rest) = (strVal acc ds, rest) := by
  induction ds with
  | nil =>
    intro acc
    cases rest with
    | nil => rfl
    | cons c t =>
      have hc : isDigitChar c = false := by
        simp [bdry] at hrest
        exact hrest.2
      simp [parseDigitsAux, hc, strVal]
  | cons d ds ih =>
    intro acc
    have hd : isDigitChar d = true := hds d (by simp)
    simp only [List.cons_append, parseDigitsAux, hd, if_true, List.append_eq]
    rw [ih (fun c hc => hds c (by simp [hc]))]
    rfl

theorem skipWs_cons {c : Char} (l : List Char) (h : isWsChar c = false) :
    skipWs (c :: l) = c :: l := by
  simp [skipWs, h]

theorem parseStrChars_escStr (s : List Char) : ∀ rest : List Char,
    parseStrChars (escStr s ++ ('"' :: rest)) = .ok (s, rest) := by
  induction s with
  | nil =>
    intro rest
    show parseStrChars ([] ++ '"' :: rest) = _
    rw [List.nil_append, parseStrChars.eq_def]
    simp
  | cons c cs ih =>
    intro rest
    show parseStrChars ((escChar c ++ escStr cs) ++ ('"' :: rest)) = _
    rw [List.append_assoc]
    unfold escChar
    by_cases h1 : c = '"'
    · subst h1; simp [parseStrChars, unescape, ih rest]
    · by_cases h2 : c = '\\'
      · subst h2; simp [parseStrChars, unescape, ih rest]
      · by_cases h3 : c = '\n'
        · subst h3; simp [parseStrChars, unescape, ih rest]
        · by_cases h4 : c = '\t'
          · subst h4; simp [parseStrChars, unescape, ih rest]
          · by_cases h5 : c = '\r'
            · subst h5; simp [parseStrChars, unescape, ih rest]
            · simp only [h1, h2, h3, h4, h5, if_false, List.singleton_append,
                List.cons_append]
              rw [parseStrChars.eq_def]
              simp [h1, h2, ih rest]

mutual

/-- Fuel measure of a value: enough `parseVal` fuel to read its
serialization back. -/
def sizeJ : Json → Nat
  | .null => 1
  | .bool _ => 1
  | .num _ => 1
  | .str _ => 1
  | .arr xs => sizeL xs + 1
  | .obj fs => sizeF fs + 1

/-- Fuel measure of an array-element list. -/
def sizeL : List Json → Nat
  | [] => 1
  | x :: r => sizeJ x + sizeL r + 1

/-- Fuel measure of an object-member list. -/
def sizeF : List (String × Json) → Nat
  | [] => 1
  | (_, v) :: r => sizeJ v + sizeF r + 1

end

theorem sizeJ_pos (j : Json) : 1 ≤ sizeJ j := by
  cases j <;> simp [sizeJ]

theorem sizeL_pos (xs : List Json) : 1 ≤ sizeL xs := by
  cases xs <;> simp [sizeL]

theorem sizeF_pos (fs : List (String × Json)) : 1 ≤ sizeF fs := by
  cases fs with
  | nil => simp [sizeF]
  | cons f r => obtain ⟨k, v⟩ := f; simp [sizeF]

mutual

theorem sizeJ_le : ∀ j : Json, sizeJ j ≤ 2 * (serializeChars j).length
  | .null => by simp [sizeJ, serializeChars]
  | .bool true => by simp [sizeJ, serializeChars]
  | .bool false => by simp [sizeJ, serializeChars]
  | .num n => by
    have h := natToChars_ne_nil n.natAbs
    have hl : 1 ≤ (natToChars n.natAbs).length := by
      cases hc : natToChars n.natAbs with
      | nil => exact absurd hc h
      | cons a b => simp
    unfold sizeJ serializeChars intToChars
    split <;> simp <;> omega
  | .str s => by simp [sizeJ, serializeChars]; omega
  | .arr xs => by
    have h := sizeL_le xs
    simp only [sizeJ, serializeChars, List.length_cons, List.length_append,
      List.length_singleton]
    omega
  | .obj fs => by
    have h := sizeF_le fs
    simp only [sizeJ, serializeChars, List.length_cons, List.length_append,
      List.length_singleton]
    omega

theorem sizeL_le : ∀ xs : List Json, sizeL xs ≤ 2 * (serializeItems xs).length + 2
  | [] => by simp [sizeL, serializeItems]
  | [x] => by
    have h := sizeJ_le x
    simp only [sizeL, sizeL.eq_1, serializeItems]
    omega
  | x :: y :: r => by
    have h1 := sizeJ_le x
    have h2 := sizeL_le (y :: r)
    simp only [sizeL] at h2 ⊢
    simp only [serializeItems, List.length_append, List.length_cons]
    omega

theorem sizeF_le : ∀ fs : List (String × Json), sizeF fs ≤ 2 * (serializeMembers fs).length + 2
  | [] => by simp [sizeF, serializeMembers]
  | [(k, v)] => by
    have h := sizeJ_le v
    simp only [sizeF, sizeF.eq_1, serializeMembers, List.length_cons, List.length_append]
    omega
  | (k, v) :: m :: r => by
    have h1 := sizeJ_le v
    have h2 := sizeF_le (m :: r)
    simp only [sizeF] at h2 ⊢
    simp only [serializeMembers, List.length_append, List.length_cons]
    omega

end

/-- The first character of a serialized value is never whitespace and
never a closing bracket, so the scanner entering an array element neither
skips into it nor mistakes it for the empty-array case. -/
theorem serializeChars_head (j : Json) :
    ∃ c t, serializeChars j = c :: t ∧ isWsChar c = false ∧ c ≠ ']' := by
  cases j with
  | null => exact ⟨'n', _, rfl, by decide, by decide⟩
  | bool b => cases b with
    | true => exact ⟨'t', _, rfl, by decide, by decide⟩
    | false => exact ⟨'f', _, rfl, by decide, by decide⟩
  | num n =>
    show ∃ c t, intToChars n = c :: t ∧ _
    unfold intToChars
    split
    · exact ⟨'-', _, rfl, by decide, by decide⟩
    · cases hc : natToChars n.natAbs with
      | nil => exact absurd hc (natToChars_ne_nil _)
      | cons d ds =>
        have hd : isDigitChar d = true := natToChars_digits _ d (by rw [hc]; simp)
        refine ⟨d, ds, rfl, ?_, ?_⟩ <;>
          rcases isDigitChar_elim hd with h | h | h | h | h | h | h | h | h | h <;>
            subst h <;> decide
  | str s => exact ⟨'"', _, rfl, by decide, by decide⟩
  | arr xs => exact ⟨'[', _, rfl, by decide, by decide⟩
  | obj fs => exact ⟨'\x7b', _, rfl, by decide, by decide⟩

/-- A nonempty member list serializes starting with the opening quote of
its first key. -/
theorem serializeMembers_cons (m : String × Json) (r : List (String × Json)) :
    ∃ t, serializeMembers (m :: r) = '"' :: t := by
  obtain ⟨k, v⟩ := m
  cases r with
  | nil => exact ⟨_, rfl⟩
  | cons m2 r2 => exact ⟨_, rfl⟩

theorem parseVal_digits (fuel : Nat) (d : Char) (ds rest : List Char)
    (hd : isDigitChar d = true) (hds : ∀ c ∈ ds, isDigitChar c = true)
    (hb : bdry rest = true) :
    parseVal (fuel + 1) ((d :: ds) ++ rest) =
      .ok (.num ((strVal (digitVal d) ds : Nat) : Int), rest) := by
  have hpd := parseDigitsAux_append ds rest hds hb (digitVal d)
  rcases isDigitChar_elim hd with h | h | h | h | h | h | h | h | h | h <;> subst h <;>
    simp [parseVal, skipWs, isWsChar, isDigitChar, hpd]

theorem parseVal_minus (fuel : Nat) (d : Char) (ds rest : List Char)
    (hd : isDigitChar d = true) (hds : ∀ c ∈ ds, isDigitChar c = true)
    (hb : bdry rest = true) :
    parseVal (fuel + 1) ('-' :: ((d :: ds) ++ rest)) =
      .ok (.num (-((strVal (digitVal d) ds : Nat) : Int)), rest) := by
  have hpd := parseDigitsAux_append ds rest hds hb (digitVal d)
  simp [parseVal, skipWs, isWsChar, hd, hpd]

theorem strVal_cons_zero (d : Char) (ds : List Char) :
    strVal (digitVal d) ds = strVal 0 (d :: ds) := by
  simp [strVal]

theorem strVal_zero_natToChars (n : Nat) : strVal 0 (natToChars n) = n := by
  rw [strVal_natToChars]
  simp

theorem serializeItems_head (x : Json) (xs : List Json) :
    ∃ c t, serializeItems (x :: xs) = c :: t ∧ isWsChar c = false ∧ c ≠ ']' := by
  obtain ⟨c, t, hct, hws, hne⟩ := serializeChars_head x
  cases xs with
  | nil => exact ⟨c, t, by simp [serializeItems, hct], hws, hne⟩
  | cons y r =>
    exact ⟨c, t ++ (',' :: serializeItems (y :: r)),
      by simp [serializeItems, hct], hws, hne⟩


theorem parse_ser_aux : ∀ fuel : Nat,
    (∀ j rest, sizeJ j ≤ fuel → bdry rest = true →
      parseVal fuel (serializeChars j ++ rest) = .ok (j, rest)) ∧
    (∀ xs rest, xs ≠ [] → sizeL xs ≤ fuel →
      parseItems fuel (serializeItems xs ++ (']' :: rest)) = .ok (xs, rest)) ∧
    (∀ fs rest, fs ≠ [] → sizeF fs ≤ fuel →
      parseMembers fuel (serializeMembers fs ++ ('\x7d' :: rest)) = .ok (fs, rest)) := by
  intro fuel
  induction fuel with
  | zero =>
    refine ⟨?_, ?_, ?_⟩
    · intro j rest hsz _; have := sizeJ_pos j; omega
    · intro xs rest _ hsz; have := sizeL_pos xs; omega
    · intro fs rest _ hsz; have := sizeF_pos fs; omega
  | succ fuel ih =>
    obtain ⟨ih1, ih2, ih3⟩ := ih
    refine ⟨?_, ?_, ?_⟩
    · -- parseVal on a serialized value
      intro j rest hsz hb
      cases j with
      | null => simp [serializeChars, parseVal, skipWs, isWsChar]
      | bool b => cases b <;> simp [serializeChars, parseVal, skipWs, isWsChar]
      | num n =>
        by_cases hneg : n < 0
        · have hser : serializeChars (Json.num n) = '-' :: natToChars n.natAbs := by
            simp [serializeChars, intToChars, hneg]
          cases hc : natToChars n.natAbs with
          | nil => exact absurd hc (natToChars_ne_nil _)
          | cons d ds =>
            have hd : isDigitChar d = true := natToChars_digits _ d (by rw [hc]; simp)
            have hds : ∀ c ∈ ds, isDigitChar c = true := fun c hcm =>
              natToChars_digits _ c (by rw [hc]; simp [hcm])
            rw [hser, hc, List.cons_append, parseVal_minus fuel d ds rest hd hds hb]
            have hv : strVal (digitVal d) ds = n.natAbs := by
              rw [strVal_cons_zero, ← hc, strVal_zero_natToChars]
            have hvi : -((n.natAbs : Nat) : Int) = n := by omega
            rw [hv, hvi]
        · have hser : serializeChars (Json.num n) = natToChars n.natAbs := by
            simp [serializeChars, intToChars, hneg]
          cases hc : natToChars n.natAbs with
          | nil => exact absurd hc (natToChars_ne_nil _)
          | cons d ds =>
            have hd : isDigitChar d = true := natToChars_digits _ d (by rw [hc]; simp)
            have hds : ∀ c ∈ ds, isDigitChar c = true := fun c hcm =>
              natToChars_digits _ c (by rw [hc]; simp [hcm])
            rw [hser, hc, parseVal_digits fuel d ds rest hd hds hb]
            have hv : strVal (digitVal d) ds = n.natAbs := by
              rw [strVal_cons_zero, ← hc, strVal_zero_natToChars]
            have hvi : ((n.natAbs : Nat) : Int) = n := by omega
            rw [hv, hvi]
      | str s =>
        have hps := parseStrChars_escStr s.toList rest
        simp only [String.toList] at hps
        simp only [serializeChars, List.cons_append, List.append_assoc,
          List.singleton_append]
        simp [parseVal, skipWs, isWsChar, isDigitChar, hps]
      | arr xs =>
        cases xs with
        | nil => simp [serializeChars, serializeItems, parseVal, skipWs, isWsChar, isDigitChar]
        | cons x xs' =>
          have hsz2 : sizeL (x :: xs') ≤ fuel := by
            simp only [sizeJ] at hsz; omega
          have hitems := ih2 (x :: xs') rest (by simp) hsz2
          obtain ⟨c, t, hct, hws, hne⟩ := serializeItems_head x xs'
          have hre : serializeChars (Json.arr (x :: xs')) ++ rest
              = '[' :: (c :: (t ++ (']' :: rest))) := by
            simp [serializeChars, hct]
          rw [hre]
          simp [parseVal, skipWs, isWsChar, isDigitChar, hws]
          have hws2 : ¬(((c = ' ' ∨ c = '\t') ∨ c = '\n') ∨ c = '\x0d') := by
            simp [isWsChar] at hws; tauto
          rw [if_neg hws2]
          have hback : c :: (t ++ (']' :: rest)) = serializeItems (x :: xs') ++ (']' :: rest) := by
            simp [hct]
          split
          · next r heq => 
              rw [List.cons_eq_cons] at heq
              exact absurd heq.1 hne
          · rw [hback, hitems]
      | obj fs =>
        cases fs with
        | nil => simp [serializeChars, serializeMembers, parseVal, skipWs, isWsChar, isDigitChar]
        | cons f fs' =>
          have hsz2 : sizeF (f :: fs') ≤ fuel := by
            simp only [sizeJ] at hsz; omega
          have hmem := ih3 (f :: fs') rest (by simp) hsz2
          obtain ⟨t, hct⟩ := serializeMembers_cons f fs'
          have hre : serializeChars (Json.obj (f :: fs')) ++ rest
              = '\x7b' :: ('"' :: (t ++ ('\x7d' :: rest))) := by
            simp [serializeChars, hct]
          rw [hre]
          have hback : '"' :: (t ++ ('\x7d' :: rest))
              = serializeMembers (f :: fs') ++ ('\x7d' :: rest) := by
            simp [hct]
          simp [parseVal, skipWs, isWsChar, isDigitChar]
          rw [hback, hmem]
    · -- parseItems on serialized nonempty element lists
      intro xs rest hne hsz
      cases xs with
      | nil => exact absurd rfl hne
      | cons x xs' =>
        cases xs' with
        | nil =>
          have hsx : sizeJ x ≤ fuel := by
            simp only [sizeL] at hsz; omega
          have hv := ih1 x (']' :: rest) hsx (by rfl)
          have hre : serializeItems [x] ++ (']' :: rest)
              = serializeChars x ++ (']' :: rest) := by
            simp [serializeItems]
          rw [hre]
          simp [parseItems, hv, skipWs, isWsChar]
        | cons y r =>
          have hsx : sizeJ x ≤ fuel := by
            simp only [sizeL] at hsz; omega
          have hsyr : sizeL (y :: r) ≤ fuel := by
            simp only [sizeL] at hsz ⊢; omega
          have hv := ih1 x (',' :: (serializeItems (y :: r) ++ (']' :: rest))) hsx (by rfl)
          have hrec := ih2 (y :: r) rest (by simp) hsyr
          have hre : serializeItems (x :: y :: r) ++ (']' :: rest)
              = serializeChars x ++ (',' :: (serializeItems (y :: r) ++ (']' :: rest))) := by
            simp [serializeItems]
          rw [hre]
          simp [parseItems, hv, skipWs, isWsChar, hrec]
    · -- parseMembers on serialized nonempty member lists
      intro fs rest hne hsz
      cases fs with
      | nil => exact absurd rfl hne
      | cons f fs' =>
        obtain ⟨k, v⟩ := f
        cases fs' with
        | nil =>
          have hsv : sizeJ v ≤ fuel := by
            simp only [sizeF] at hsz; omega
          have hv := ih1 v ('\x7d' :: rest) hsv (by rfl)
          have hps := parseStrChars_escStr k.toList
            (':' :: (serializeChars v ++ ('\x7d' :: rest)))
          simp only [String.toList] at hps
          have hre : serializeMembers [(k, v)] ++ ('\x7d' :: rest)
              = '"' :: (escStr k.data
                  ++ ('"' :: (':' :: (serializeChars v ++ ('\x7d' :: rest))))) := by
            simp [serializeMembers, String.toList]
          rw [hre]
          simp [parseMembers, skipWs, isWsChar, hps, hv]
        | cons m r =>
          have hsv : sizeJ v ≤ fuel := by
            simp only [sizeF] at hsz; omega
          have hsr : sizeF (m :: r) ≤ fuel := by
            simp only [sizeF] at hsz ⊢; omega
          have hrec := ih3 (m :: r) rest (by simp) hsr
          have hv := ih1 v
            (',' :: (serializeMembers (m :: r) ++ ('\x7d' :: rest))) hsv (by rfl)
          have hps := parseStrChars_escStr k.toList
            (':' :: (serializeChars v ++ (',' :: (serializeMembers (m :: r) ++ ('\x7d' :: rest)))))
          simp only [String.toList] at hps
          have hre : serializeMembers ((k, v) :: m :: r) ++ ('\x7d' :: rest)
              = '"' :: (escStr k.data
                  ++ ('"' :: (':' :: (serializeChars v
                      ++ (',' :: (serializeMembers (m :: r) ++ ('\x7d' :: rest))))))) := by
            simp [serializeMembers, String.toList]
          rw [hre]
          simp [parseMembers, skipWs, isWsChar, hps, hv, hrec]


theorem parse_serialize (j : Json) : parseJson (serialize j) = .ok j := by
  have hlen : (serialize j).length = (serializeChars j).length := by
    simp [serialize, String.length]
  have hsz : sizeJ j ≤ 2 * (serialize j).length + 2 := by
    have := sizeJ_le j
    omega
  have h := (parse_ser_aux (2 * (serialize j).length + 2)).1 j [] hsz (by rfl)
  rw [List.append_nil] at h
  have htl : (serialize j).toList = serializeChars j := by
    simp [serialize, String.toList]
  unfold parseJson
  rw [htl, h]
  rfl

theorem logW_fetches (lf : Nat → Bool) (msg : String) (t : Trace) :
    (logW lf msg t).fetches = t.fetches := rfl

theorem handleRequest_fst (lf lf2 : Nat → Bool) (backend : Backend) (req : Json)
    (t t2 : Trace) :
    (handleRequest lf backend req t).1 = (handleRequest lf2 backend req t2).1 := by
  unfold handleRequest
  cases hd : destructure req with
  | error m => rfl
  | ok p =>
    obtain ⟨tool, args⟩ := p
    by_cases h1 : isToolStr tool "execute_task" = true
    · simp only [h1, if_true]
      cases hb : backend (stringifyField args) with
      | transport m => rfl
      | reply st bdy =>
        cases hp : parseJson bdy with
        | error pm => simp [hp]
        | ok d => simp [hp]
    · by_cases h2 : isToolStr tool "capture_screenshot" = true
      · simp [h1, h2]
      · by_cases h3 : isToolStr tool "compare_images" = true
        · simp [h1, h2, h3]
        · simp [h1, h2, h3]

theorem processLine_fst (lf lf2 : Nat → Bool) (backend : Backend) (line : String)
    (t t2 : Trace) :
    (processLine lf backend line t).1 = (processLine lf2 backend line t2).1 := by
  unfold processLine
  cases hp : parseJson line with
  | error m => rfl
  | ok req =>
    have h := handleRequest_fst lf lf2 backend req
      (logW lf ("Received MCP line: " ++ line) t)
      (logW lf2 ("Received MCP line: " ++ line) t2)
    cases h1 : handleRequest lf backend req (logW lf ("Received MCP line: " ++ line) t) with
    | mk a1 u1 =>
      cases h2 : handleRequest lf2 backend req (logW lf2 ("Received MCP line: " ++ line) t2) with
      | mk a2 u2 =>
        rw [h1, h2] at h
        simp at h
        subst h
        simp only [h1, h2]
        cases a1 <;> rfl

/-- C2: an input line that does not parse (the empty line included) yields
exactly one `{"error": ...}` output line, with no backend fetch issued and
no exception escaping the per-line handler (`processLine` is total and
returns the error line). -/
theorem c2_decode_failure_yields_error_line (lf : Nat → Bool) (backend : Backend)
    (line : String) (t : Trace) (m : String) (h : parseJson line = .error m) :
    (processLine lf backend line t).1 = serialize (Json.obj [("error", Json.str m)]) ∧
    (processLine lf backend line t).2.fetches = t.fetches := by
  unfold processLine
  simp only [h]
  simp [logW]

/-- C2 witness: the empty line is a decode failure and produces the single
error line with no fetch. -/
theorem c2_witness :
    parseJson "" = .error "Unexpected end of JSON input" ∧
    ((processLine noFail echoBackend "" emptyTrace).1
        = serialize (Json.obj [("error", Json.str "Unexpected end of JSON input")]) ∧
      (processLine noFail echoBackend "" emptyTrace).2.fetches = emptyTrace.fetches) :=
  ⟨rfl, c2_decode_failure_yields_error_line noFail echoBackend "" emptyTrace
    "Unexpected end of JSON input" rfl⟩


/-- C3 counterexample: the line `{"arguments":{}}` parses successfully (so
it is not rejected at the decode stage) and its output is the
dispatch-stage failure `{"error":"Unknown tool: undefined"}`, not a
decoding-error line such as `{"error":"missing tool field"}`. -/
theorem c3_counterexample :
    parseJson "\x7b\"arguments\":\x7b\x7d\x7d"
      = .ok (Json.obj [("arguments", Json.obj [])]) ∧
    (processLine noFail echoBackend "\x7b\"arguments\":\x7b\x7d\x7d" emptyTrace).1
      = "\x7b\"error\":\"Unknown tool: undefined\"\x7d" ∧
    (processLine noFail echoBackend "\x7b\"arguments\":\x7b\x7d\x7d" emptyTrace).1
      ≠ "\x7b\"error\":\"missing tool field\"\x7d" := by
  have h : (processLine noFail echoBackend "\x7b\"arguments\":\x7b\x7d\x7d" emptyTrace).1
      = "\x7b\"error\":\"Unknown tool: undefined\"\x7d" := rfl
  exact ⟨rfl, h, by rw [h]; decide⟩

/-- C3 amended: a parsed object without a `tool` field is not rejected at
the decode stage; it is treated as a request whose tool is `undefined` and
falls to the unknown-tool dispatch branch, yielding
`Failure("Unknown tool: undefined")` with no backend fetch; an object
whose tool is the empty string likewise reaches dispatch and yields
`Failure("Unknown tool: ")`. -/
theorem c3_amended_missing_tool_reaches_dispatch (lf : Nat → Bool) (backend : Backend)
    (t : Trace) (fs : List (String × Json)) :
    (lookupLast fs "tool" = none →
      (handleRequest lf backend (Json.obj fs) t).1
        = .ok (Json.obj [("error", Json.str "Unknown tool: undefined")]) ∧
      (handleRequest lf backend (Json.obj fs) t).2.fetches = t.fetches) ∧
    (lookupLast fs "tool" = some (Json.str "") →
      (handleRequest lf backend (Json.obj fs) t).1
        = .ok (Json.obj [("error", Json.str "Unknown tool: ")]) ∧
      (handleRequest lf backend (Json.obj fs) t).2.fetches = t.fetches) := by
  constructor <;> intro h <;>
    simp [handleRequest, destructure, h, isToolStr, jsToStringF, jsToStringJ, logW]

/-- C3 amended witness: at the concrete requests `{"arguments":{}}` and
`{"tool":""}` the two dispatch outcomes are as the amended claim states. -/
theorem c3_amended_witness :
    ((handleRequest noFail echoBackend (Json.obj [("arguments", Json.obj [])]) emptyTrace).1
        = .ok (Json.obj [("error", Json.str "Unknown tool: undefined")]) ∧
      (handleRequest noFail echoBackend (Json.obj [("arguments", Json.obj [])]) emptyTrace).2.fetches
        = emptyTrace.fetches) ∧
    ((handleRequest noFail echoBackend (Json.obj [("tool", Json.str "")]) emptyTrace).1
        = .ok (Json.obj [("error", Json.str "Unknown tool: ")]) ∧
      (handleRequest noFail echoBackend (Json.obj [("tool", Json.str "")]) emptyTrace).2.fetches
        = emptyTrace.fetches) :=
  ⟨(c3_amended_missing_tool_reaches_dispatch noFail echoBackend emptyTrace
      [("arguments", Json.obj [])]).1 rfl,
    (c3_amended_missing_tool_reaches_dispatch noFail echoBackend emptyTrace
      [("tool", Json.str "")]).2 rfl⟩

/-- C4: a request whose tool is a string matching none of the three
registry names yields `Failure("Unknown tool: <name>")` verbatim, with no
backend fetch. -/
theorem c4_unknown_tool_rejected (lf : Nat → Bool) (backend : Backend) (t : Trace)
    (s : String) (a : Json)
    (h1 : s ≠ "execute_task") (h2 : s ≠ "capture_screenshot")
    (h3 : s ≠ "compare_images") :
    (handleRequest lf backend
        (Json.obj [("tool", Json.str s), ("arguments", a)]) t).1
      = .ok (Json.obj [("error", Json.str ("Unknown tool: " ++ s))]) ∧
    (handleRequest lf backend
        (Json.obj [("tool", Json.str s), ("arguments", a)]) t).2.fetches
      = t.fetches := by
  simp [handleRequest, destructure, lookupLast, isToolStr, h1, h2, h3,
    jsToStringF, jsToStringJ, logW]

/-- C4 witness: the unregistered tool name "foo" is rejected verbatim. -/
theorem c4_witness :
    (handleRequest noFail echoBackend
        (Json.obj [("tool", Json.str "foo"), ("arguments", Json.null)]) emptyTrace).1
      = .ok (Json.obj [("error", Json.str ("Unknown tool: " ++ "foo"))]) ∧
    (handleRequest noFail echoBackend
        (Json.obj [("tool", Json.str "foo"), ("arguments", Json.null)]) emptyTrace).2.fetches
      = emptyTrace.fetches :=
  c4_unknown_tool_rejected noFail echoBackend emptyTrace "foo" Json.null
    (by decide) (by decide) (by decide)

/-- C5: the two registered but not-implemented tools yield
`Failure("<name> not implemented")` and no backend fetch is attempted. -/
theorem c5_not_implemented_no_fetch (lf : Nat → Bool) (backend : Backend)
    (t : Trace) (a : Json) :
    ((handleRequest lf backend
        (Json.obj [("tool", Json.str "capture_screenshot"), ("arguments", a)]) t).1
      = .ok (Json.obj [("error", Json.str "capture_screenshot not implemented")]) ∧
     (handleRequest lf backend
        (Json.obj [("tool", Json.str "capture_screenshot"), ("arguments", a)]) t).2.fetches
      = t.fetches) ∧
    ((handleRequest lf backend
        (Json.obj [("tool", Json.str "compare_images"), ("arguments", a)]) t).1
      = .ok (Json.obj [("error", Json.str "compare_images not implemented")]) ∧
     (handleRequest lf backend
        (Json.obj [("tool", Json.str "compare_images"), ("arguments", a)]) t).2.fetches
      = t.fetches) := by
  constructor <;>
    simp [handleRequest, destructure, lookupLast, isToolStr, logW]


/-- C6: if the backend replies to a forwarded request with any HTTP status
and a body that parses, the outcome is `Success` of the parsed body,
unmodified — the status and any error the body itself encodes are
ignored. -/
theorem c6_parseable_reply_is_success (lf : Nat → Bool) (backend : Backend)
    (t : Trace) (a d : Json) (status : Nat) (body : String)
    (hb : backend (some (serialize a)) = .reply status body)
    (hp : parseJson body = .ok d) :
    (handleRequest lf backend
        (Json.obj [("tool", Json.str "execute_task"), ("arguments", a)]) t).1
      = .ok (Json.obj [("result", d)]) := by
  simp [handleRequest, destructure, lookupLast, isToolStr, stringifyField,
    hb, hp, logW]

/-- C6 witness: a backend double replying with HTTP status 500 and the
body `{"status":"error"}` still produces Success of that body. -/
theorem c6_witness :
    (handleRequest noFail
        (fun _ => .reply 500 "\x7b\"status\":\"error\"\x7d")
        (Json.obj [("tool", Json.str "execute_task"), ("arguments", Json.obj [])])
        emptyTrace).1
      = .ok (Json.obj [("result", Json.obj [("status", Json.str "error")])]) :=
  c6_parseable_reply_is_success noFail
    (fun _ => .reply 500 "\x7b\"status\":\"error\"\x7d") emptyTrace
    (Json.obj []) (Json.obj [("status", Json.str "error")]) 500
    "\x7b\"status\":\"error\"\x7d" rfl rfl

/-- C7: a transport failure (connection refused, reset or timeout,
surfaced by fetch as a rejection) or an unparseable reply body each
produce `Failure` carrying the exception message, after exactly one fetch
attempt (the fetch list grows by exactly one element; no retry occurs). -/
theorem c7_transport_failure_single_attempt (lf : Nat → Bool) (backend : Backend)
    (t : Trace) (a : Json) :
    (∀ m, backend (some (serialize a)) = .transport m →
      (handleRequest lf backend
          (Json.obj [("tool", Json.str "execute_task"), ("arguments", a)]) t).1
        = .ok (Json.obj [("error", Json.str m)]) ∧
      (handleRequest lf backend
          (Json.obj [("tool", Json.str "execute_task"), ("arguments", a)]) t).2.fetches
        = t.fetches ++ [some (serialize a)]) ∧
    (∀ status body pm, backend (some (serialize a)) = .reply status body →
      parseJson body = .error pm →
      (handleRequest lf backend
          (Json.obj [("tool", Json.str "execute_task"), ("arguments", a)]) t).1
        = .ok (Json.obj [("error", Json.str pm)]) ∧
      (handleRequest lf backend
          (Json.obj [("tool", Json.str "execute_task"), ("arguments", a)]) t).2.fetches
        = t.fetches ++ [some (serialize a)]) := by
  constructor
  · intro m hb
    simp [handleRequest, destructure, lookupLast, isToolStr, stringifyField,
      hb, logW]
  · intro status body pm hb hp
    simp [handleRequest, destructure, lookupLast, isToolStr, stringifyField,
      hb, hp, logW]

/-- C7 witness: a connection-refused backend and a backend replying
unparseable text each surface as one Failure line after exactly one
attempt. -/
theorem c7_witness :
    ((handleRequest noFail
        (fun _ => .transport "connect ECONNREFUSED 127.0.0.1:5000")
        (Json.obj [("tool", Json.str "execute_task"), ("arguments", Json.obj [])])
        emptyTrace).1
      = .ok (Json.obj [("error", Json.str "connect ECONNREFUSED 127.0.0.1:5000")]) ∧
     (handleRequest noFail
        (fun _ => .transport "connect ECONNREFUSED 127.0.0.1:5000")
        (Json.obj [("tool", Json.str "execute_task"), ("arguments", Json.obj [])])
        emptyTrace).2.fetches
      = emptyTrace.fetches ++ [some (serialize (Json.obj []))]) ∧
    ((handleRequest noFail (fun _ => .reply 200 "oops")
        (Json.obj [("tool", Json.str "execute_task"), ("arguments", Json.obj [])])
        emptyTrace).1
      = .ok (Json.obj [("error", Json.str "Unexpected token in JSON")]) ∧
     (handleRequest noFail (fun _ => .reply 200 "oops")
        (Json.obj [("tool", Json.str "execute_task"), ("arguments", Json.obj [])])
        emptyTrace).2.fetches
      = emptyTrace.fetches ++ [some (serialize (Json.obj []))]) :=
  ⟨(c7_transport_failure_single_attempt noFail
      (fun _ => .transport "connect ECONNREFUSED 127.0.0.1:5000") emptyTrace
      (Json.obj [])).1 "connect ECONNREFUSED 127.0.0.1:5000" rfl,
   (c7_transport_failure_single_attempt noFail (fun _ => .reply 200 "oops")
      emptyTrace (Json.obj [])).2 200 "oops" "Unexpected token in JSON" rfl rfl⟩

/-- C8: forwarding any argument map to an echoing backend yields Success
of that same argument map: the posted body is exactly the serialized
argument map, the echoed body parses back to the same value
(`parse_serialize`), and the reply is passed through unmodified. -/
theorem c8_echo_roundtrip (lf : Nat → Bool) (t : Trace) (a : Json) :
    (handleRequest lf echoBackend
        (Json.obj [("tool", Json.str "execute_task"), ("arguments", a)]) t).1
      = .ok (Json.obj [("result", a)]) ∧
    (handleRequest lf echoBackend
        (Json.obj [("tool", Json.str "execute_task"), ("arguments", a)]) t).2.fetches
      = t.fetches ++ [some (serialize a)] := by
  have hp := parse_serialize a
  simp [handleRequest, destructure, lookupLast, isToolStr, stringifyField,
    echoBackend, hp, logW]

/-- C9: a failing audit-log append never changes the response line: the
output of processing any line under any log-failure oracle — including the
oracle under which every append raises — equals the output under the
never-failing oracle, whatever the starting trace. -/
theorem c9_log_failure_does_not_affect_output (lf : Nat → Bool) (backend : Backend)
    (line : String) (t t2 : Trace) :
    (processLine lf backend line t).1 = (processLine noFail backend line t2).1 :=
  processLine_fst lf noFail backend line t t2

/-- C10: the line `null` is valid JSON but not an object; destructuring it
throws before the try block in `handleRequest`, yet the per-line handler
still catches the fault and emits exactly one error line carrying the raw
TypeError message, with no fetch issued. -/
theorem c10_null_line_fault_caught (lf : Nat → Bool) (backend : Backend) (t : Trace) :
    parseJson "null" = .ok Json.null ∧
    (processLine lf backend "null" t).1
      = serialize (Json.obj [("error", Json.str destructureMsg)]) ∧
    (processLine lf backend "null" t).2.fetches = t.fetches := by
  have hn : parseJson "null" = .ok Json.null := rfl
  unfold processLine
  simp only [hn]
  refine ⟨?_, ?_, ?_⟩ <;>
    simp [handleRequest, destructure, logW]


/-- The first `d` entries of the expected output table. -/
def expectedPrefix (backend : Backend) (lines : List String) (d : Nat) :
    List (Nat × String) :=
  (List.range d).map (fun i => (i, outLine backend (lines.getD i "")))

theorem expectedOuts_eq_prefix (backend : Backend) (lines : List String) :
    expectedOuts backend lines = expectedPrefix backend lines lines.length := rfl

theorem expectedPrefix_succ (backend : Backend) (lines : List String) (d : Nat) :
    expectedPrefix backend lines (d + 1)
      = expectedPrefix backend lines d ++ [(d, outLine backend (lines.getD d ""))] := by
  simp [expectedPrefix, List.range_succ]

/-- Invariant of the event system: delivery is a prefix of the input, and
the outputs written so far together with the in-flight completions are
exactly one entry per delivered line. -/
def stepInv (backend : Backend) (lines : List String) (s : EState) : Prop :=
  s.delivered ≤ lines.length ∧
  s.pending = lines.drop s.delivered ∧
  ((s.outs : Multiset (Nat × String)) + (s.inflight : Multiset (Nat × String)))
    = (expectedPrefix backend lines s.delivered : Multiset (Nat × String))

theorem drop_cons_facts {lines : List String} {d : Nat} {l : String}
    {rest : List String} (h : lines.drop d = l :: rest) :
    d < lines.length ∧ lines.getD d "" = l ∧ lines.drop (d + 1) = rest := by
  refine ⟨?_, ?_, ?_⟩
  · by_contra hle
    rw [List.drop_eq_nil_of_le (by omega)] at h
    exact List.noConfusion h
  · have h0 : lines[d]? = some l := by
      have hd := List.getElem?_drop lines d 0
      rw [h] at hd
      simpa using hd.symm
    simp [List.getD, h0]
  · rw [← List.tail_drop, h]
    rfl

theorem stepInv_preserved {backend : Backend} {lines : List String} {s s2 : EState}
    (h : Step backend s s2) (hi : stepInv backend lines s) :
    stepInv backend lines s2 := by
  obtain ⟨hd, hp, hm⟩ := hi
  cases h with
  | deliverSync l rest s hpend hsync =>
    obtain ⟨hlt, hget, hdrop⟩ := drop_cons_facts (hp.symm.trans hpend)
    refine ⟨?_, ?_, ?_⟩
    · show s.delivered + 1 ≤ lines.length
      omega
    · show rest = lines.drop (s.delivered + 1)
      exact hdrop.symm
    · show (↑(s.outs ++ [(s.delivered, outLine backend l)]) : Multiset (Nat × String))
          + ↑s.inflight = ↑(expectedPrefix backend lines (s.delivered + 1))
      rw [expectedPrefix_succ, hget]
      simp only [← Multiset.coe_add]
      rw [add_right_comm, hm]
  | deliverAsync l rest s hpend hsync =>
    obtain ⟨hlt, hget, hdrop⟩ := drop_cons_facts (hp.symm.trans hpend)
    refine ⟨?_, ?_, ?_⟩
    · show s.delivered + 1 ≤ lines.length
      omega
    · show rest = lines.drop (s.delivered + 1)
      exact hdrop.symm
    · show (↑s.outs : Multiset (Nat × String))
          + ↑(s.inflight ++ [(s.delivered, outLine backend l)])
          = ↑(expectedPrefix backend lines (s.delivered + 1))
      rw [expectedPrefix_succ, hget]
      simp only [← Multiset.coe_add]
      rw [← add_assoc, hm]
  | complete pre post io s hinf =>
    rw [hinf] at hm
    refine ⟨hd, hp, ?_⟩
    show (↑(s.outs ++ [io]) : Multiset (Nat × String)) + ↑(pre ++ post)
        = ↑(expectedPrefix backend lines s.delivered)
    rw [← hm]
    simp only [← Multiset.coe_add, ← Multiset.cons_coe, ← Multiset.singleton_add,
      Multiset.coe_singleton]
    abel

theorem reaches_stepInv {backend : Backend} {lines : List String} {s : EState}
    (h : Reaches backend (initState lines) s) : stepInv backend lines s := by
  induction h with
  | refl =>
    refine ⟨by simp [initState], by simp [initState], ?_⟩
    simp [initState, expectedPrefix]
  | tail hab hbc ih => exact stepInv_preserved hbc ih


/-- C1 amended: in every complete run of the event system, exactly one
output line is emitted per input line, and each input line receives
exactly its own output line (the emitted set is exactly the expected
table); but the emission order follows completion order, so when backend
calls complete out of input order the lines may be emitted out of input
order (order is not guaranteed, as the counterexample shows). -/
theorem c1_amended_one_output_per_line (backend : Backend) (lines : List String)
    (s : EState) (hr : Reaches backend (initState lines) s) (ht : Terminal s) :
    (s.outs : Multiset (Nat × String))
      = (expectedOuts backend lines : Multiset (Nat × String)) := by
  obtain ⟨hd, hp, hm⟩ := reaches_stepInv hr
  obtain ⟨hpe, hie⟩ := ht
  have hlen : lines.length ≤ s.delivered := by
    have hnil : lines.drop s.delivered = [] := by rw [← hp, hpe]
    exact List.drop_eq_nil_iff.mp hnil
  have hdel : s.delivered = lines.length := by omega
  rw [hie] at hm
  simp only [Multiset.coe_nil, add_zero] at hm
  rw [hm, hdel, expectedOuts_eq_prefix]

/-- C1 amended witness: a one-line run (the empty line, answered
synchronously) reaches the terminal state whose outputs are exactly the
expected table. -/
theorem c1_amended_one_output_per_line_witness :
    Reaches echoBackend (initState [""]) ⟨[], 1, [], [(0, outLine echoBackend "")]⟩ ∧
    Terminal ⟨[], 1, [], [(0, outLine echoBackend "")]⟩ ∧
    (([(0, outLine echoBackend "")] : List (Nat × String)) : Multiset (Nat × String))
      = (expectedOuts echoBackend [""] : Multiset (Nat × String)) := by
  have hstep : Step echoBackend (initState [""])
      ⟨[], 1, [], [(0, outLine echoBackend "")]⟩ :=
    Step.deliverSync "" [] (initState [""]) rfl rfl
  have hr : Reaches echoBackend (initState [""])
      ⟨[], 1, [], [(0, outLine echoBackend "")]⟩ :=
    Relation.ReflTransGen.single hstep
  exact ⟨hr, ⟨rfl, rfl⟩,
    c1_amended_one_output_per_line echoBackend [""] _ hr ⟨rfl, rfl⟩⟩


/-- C1 counterexample: with two forwarded lines in flight and the backend
completing the second before the first, the bridge writes the second
response line first — a complete run whose output sequence is not in
input order. The claim that output order always matches input order is
therefore false of the code. -/
theorem c1_counterexample :
    ∃ s : EState,
      Reaches echoBackend
        (initState
          ["\x7b\"tool\":\"execute_task\",\"arguments\":\x7b\"cmd\":\"noop\"\x7d\x7d",
           "\x7b\"tool\":\"execute_task\",\"arguments\":\x7b\"cmd\":\"noop2\"\x7d\x7d"]) s ∧
      Terminal s ∧
      s.outs.map Prod.snd ≠
        [outLine echoBackend
          "\x7b\"tool\":\"execute_task\",\"arguments\":\x7b\"cmd\":\"noop\"\x7d\x7d",
         outLine echoBackend
          "\x7b\"tool\":\"execute_task\",\"arguments\":\x7b\"cmd\":\"noop2\"\x7d\x7d"] := by
  refine ⟨⟨[], 2, [],
      [(1, outLine echoBackend
          "\x7b\"tool\":\"execute_task\",\"arguments\":\x7b\"cmd\":\"noop2\"\x7d\x7d"),
       (0, outLine echoBackend
          "\x7b\"tool\":\"execute_task\",\"arguments\":\x7b\"cmd\":\"noop\"\x7d\x7d")]⟩,
    ?_, ⟨rfl, rfl⟩, ?_⟩
  · have s1 : Step echoBackend
        (initState
          ["\x7b\"tool\":\"execute_task\",\"arguments\":\x7b\"cmd\":\"noop\"\x7d\x7d",
           "\x7b\"tool\":\"execute_task\",\"arguments\":\x7b\"cmd\":\"noop2\"\x7d\x7d"])
        ⟨["\x7b\"tool\":\"execute_task\",\"arguments\":\x7b\"cmd\":\"noop2\"\x7d\x7d"], 1,
          [(0, outLine echoBackend
            "\x7b\"tool\":\"execute_task\",\"arguments\":\x7b\"cmd\":\"noop\"\x7d\x7d")], []⟩ :=
      Step.deliverAsync
        "\x7b\"tool\":\"execute_task\",\"arguments\":\x7b\"cmd\":\"noop\"\x7d\x7d"
        ["\x7b\"tool\":\"execute_task\",\"arguments\":\x7b\"cmd\":\"noop2\"\x7d\x7d"]
        _ rfl rfl
    have s2 : Step echoBackend
        ⟨["\x7b\"tool\":\"execute_task\",\"arguments\":\x7b\"cmd\":\"noop2\"\x7d\x7d"], 1,
          [(0, outLine echoBackend
            "\x7b\"tool\":\"execute_task\",\"arguments\":\x7b\"cmd\":\"noop\"\x7d\x7d")], []⟩
        ⟨[], 2,
          [(0, outLine echoBackend
            "\x7b\"tool\":\"execute_task\",\"arguments\":\x7b\"cmd\":\"noop\"\x7d\x7d"),
           (1, outLine echoBackend
            "\x7b\"tool\":\"execute_task\",\"arguments\":\x7b\"cmd\":\"noop2\"\x7d\x7d")], []⟩ :=
      Step.deliverAsync
        "\x7b\"tool\":\"execute_task\",\"arguments\":\x7b\"cmd\":\"noop2\"\x7d\x7d"
        [] _ rfl rfl
    have s3 : Step echoBackend
        ⟨[], 2,
          [(0, outLine echoBackend
            "\x7b\"tool\":\"execute_task\",\"arguments\":\x7b\"cmd\":\"noop\"\x7d\x7d"),
           (1, outLine echoBackend
            "\x7b\"tool\":\"execute_task\",\"arguments\":\x7b\"cmd\":\"noop2\"\x7d\x7d")], []⟩
        ⟨[], 2,
          [(0, outLine echoBackend
            "\x7b\"tool\":\"execute_task\",\"arguments\":\x7b\"cmd\":\"noop\"\x7d\x7d")],
          [(1, outLine echoBackend
            "\x7b\"tool\":\"execute_task\",\"arguments\":\x7b\"cmd\":\"noop2\"\x7d\x7d")]⟩ :=
      Step.complete
        [(0, outLine echoBackend
          "\x7b\"tool\":\"execute_task\",\"arguments\":\x7b\"cmd\":\"noop\"\x7d\x7d")]
        []
        (1, outLine echoBackend
          "\x7b\"tool\":\"execute_task\",\"arguments\":\x7b\"cmd\":\"noop2\"\x7d\x7d")
        _ rfl
    have s4 : Step echoBackend
        ⟨[], 2,
          [(0, outLine echoBackend
            "\x7b\"tool\":\"execute_task\",\"arguments\":\x7b\"cmd\":\"noop\"\x7d\x7d")],
          [(1, outLine echoBackend
            "\x7b\"tool\":\"execute_task\",\"arguments\":\x7b\"cmd\":\"noop2\"\x7d\x7d")]⟩
        ⟨[], 2, [],
          [(1, outLine echoBackend
            "\x7b\"tool\":\"execute_task\",\"arguments\":\x7b\"cmd\":\"noop2\"\x7d\x7d"),
           (0, outLine echoBackend
            "\x7b\"tool\":\"execute_task\",\"arguments\":\x7b\"cmd\":\"noop\"\x7d\x7d")]⟩ :=
      Step.complete []
        []
        (0, outLine echoBackend
          "\x7b\"tool\":\"execute_task\",\"arguments\":\x7b\"cmd\":\"noop\"\x7d\x7d")
        _ rfl
    exact Relation.ReflTransGen.head s1
      (Relation.ReflTransGen.head s2
        (Relation.ReflTransGen.head s3 (Relation.ReflTransGen.single s4)))
  · have h1 : outLine echoBackend
        "\x7b\"tool\":\"execute_task\",\"arguments\":\x7b\"cmd\":\"noop\"\x7d\x7d"
        = "\x7b\"result\":\x7b\"cmd\":\"noop\"\x7d\x7d" := rfl
    have h2 : outLine echoBackend
        "\x7b\"tool\":\"execute_task\",\"arguments\":\x7b\"cmd\":\"noop2\"\x7d\x7d"
        = "\x7b\"result\":\x7b\"cmd\":\"noop2\"\x7d\x7d" := rfl
    simp only [List.map_cons, List.map_nil, h1, h2]
    decide

end WaylandMcp
